import Mathlib

/-!
Verification of the diagnostic routing engine of the camper-repair
application (src/notion_client.py): the data model of diagnostic nodes, the
parser that extracts a routing configuration from a free-text memo field,
and the bounded graph traversal run_diagnostic_routing together with its
helpers _choose_next_node and _choose_by_routing.
-/

namespace CamperRepair

/-- Result dictionary returned by run_diagnostic_routing: the source builds
a Python dict with exactly the keys text and end; the field endFlag models
the key named end. -/
structure DiagResult where
  text : String
  endFlag : Bool
deriving DecidableEq, Repr

/-- One entry of routing_config.next_nodes_map, read with the dict defaults
used by the source: id is None when the key is missing, keywords defaults
to the empty list, weight to 1, fallback to False. -/
structure Candidate where
  id : Option String
  keywords : List String
  weight : Int
  fallback : Bool
deriving DecidableEq, Repr

/-- A parsed routing_config as consumed by the engine: next_nodes_map
(default empty), threshold (default 0), tie_breaker_rule (None when the key
is missing). -/
structure RoutingConfig where
  next_nodes_map : List Candidate
  threshold : Int
  tie_breaker_rule : Option String
deriving DecidableEq, Repr

/-- A diagnostic node as assembled by load_diagnostic_data: node_id
defaults to the empty string, start and terminal to False, the text fields
to the empty string, routing to None. -/
structure DiagNode where
  node_id : String
  start : Bool
  terminal : Bool
  next_raw : String
  result : String
  steps : String
  cautions : String
  routing : Option RoutingConfig
deriving DecidableEq, Repr

/-- beginsWith hay needle is true when needle is an initial segment of hay
(character-list form of Python str.startswith). -/
def beginsWith : List Char → List Char → Bool
  | _, [] => true
  | [], _ :: _ => false
  | a :: hay, b :: nd => a == b && beginsWith hay nd

/-- hasSub hay needle is true when needle occurs as a contiguous run inside
hay. -/
def hasSub : List Char → List Char → Bool
  | [], needle => beginsWith [] needle
  | a :: hay, needle => beginsWith (a :: hay) needle || hasSub hay needle

/-- strContains hay needle models the Python membership test of needle
inside the string hay. -/
def strContains (hay needle : String) : Bool :=
  hasSub hay.data needle.data

/-- The tie-breaker value recognized by the engine. -/
def tieRuleSog : String := "specific_over_generic"

/-- Drop leading ASCII whitespace characters. -/
def dropWs : List Char → List Char
  | [] => []
  | c :: rest =>
    if c = ' ' ∨ c = '\t' ∨ c = '\n' ∨ c = '\r' then dropWs rest else c :: rest

/-- Python str.strip on a character list: drop whitespace at both ends. -/
def stripChars (cs : List Char) : List Char :=
  (dropWs ((dropWs cs).reverse)).reverse

/-- Python str.split with a single-character separator: the pieces between
occurrences of the separator, empty pieces preserved. -/
def splitOnChar (sep : Char) : List Char → List (List Char)
  | [] => [[]]
  | c :: rest =>
    let r := splitOnChar sep rest
    if c = sep then [] :: r
    else
      match r with
      | h :: t => (c :: h) :: t
      | [] => [[c]]

/-- node_index models the dict comprehension of run_diagnostic_routing that
builds the node registry: keys are non-empty node ids and a later node with
the same id overwrites an earlier one. -/
def node_index (nodes : List DiagNode) (key : String) : Option DiagNode :=
  nodes.foldl (fun acc n => if n.node_id ≠ "" ∧ n.node_id = key then some n else acc) none

/-- Number of keywords of a candidate that occur inside the user input. -/
def kwHits (user_input : String) (c : Candidate) : Nat :=
  (c.keywords.filter (fun kw => strContains user_input kw)).length

/-- Keyword-matching score of a candidate: hit count times weight. -/
def candScore (user_input : String) (c : Candidate) : Int :=
  (kwHits user_input c : Int) * c.weight

/-- Accumulator of the scoring loop of _choose_by_routing: the current best
candidate together with its score and keyword count; the source initializes
it to None, -1, 0. -/
structure BestState where
  best : Option Candidate
  bestScore : Int
  bestKw : Nat
deriving DecidableEq, Repr

/-- One iteration of the scoring loop of _choose_by_routing: a candidate
whose id is missing, empty, or not a key of the registry is skipped, and a
candidate reaching the threshold replaces the current best when its score
is strictly higher, or equal with strictly more keywords under the
specific_over_generic tie-breaker rule. -/
def routingStep (user_input : String) (idx : String → Option DiagNode)
    (rc : RoutingConfig) (st : BestState) (c : Candidate) : BestState :=
  match c.id with
  | none => st
  | some cid =>
    if cid = "" ∨ idx cid = none then st
    else
      let score := candScore user_input c
      let kwc := c.keywords.length
      if rc.threshold ≤ score ∧
         (st.bestScore < score ∨
          (score = st.bestScore ∧ rc.tie_breaker_rule = some tieRuleSog ∧
           st.bestKw < kwc)) then
        ⟨some c, score, kwc⟩
      else st

/-- The fallback scan at the end of _choose_by_routing: the first candidate
in declared order whose fallback flag is set and whose id is a key of the
registry. -/
def fallbackScan (idx : String → Option DiagNode) : List Candidate → Option DiagNode
  | [] => none
  | c :: rest =>
    if c.fallback then
      match c.id with
      | some cid =>
        match idx cid with
        | some n => some n
        | none => fallbackScan idx rest
      | none => fallbackScan idx rest
    else fallbackScan idx rest

/-- Lean form of _choose_by_routing: fold the scoring step over the
candidates, return the registry node of the best candidate if any,
otherwise the first resolvable fallback-flagged candidate, otherwise
None. -/
def choose_by_routing (user_input : String) (current : DiagNode)
    (idx : String → Option DiagNode) : Option DiagNode :=
  match current.routing with
  | none => none
  | some rc =>
    let st := rc.next_nodes_map.foldl (routingStep user_input idx rc) ⟨none, -1, 0⟩
    match st.best with
    | some c =>
      match c.id with
      | some cid => idx cid
      | none => none
    | none => fallbackScan idx rc.next_nodes_map

/-- First entry of a list of candidate id strings that is a key of the
registry. -/
def firstResolving (idx : String → Option DiagNode) : List String → Option DiagNode
  | [] => none
  | i :: rest =>
    match idx i with
    | some n => some n
    | none => firstResolving idx rest

/-- The next_raw fallback of _choose_next_node: split the comma-separated
field, strip each piece, and return the first piece that is a key of the
registry; an empty field yields None. -/
def nextRawChoice (next_raw : String) (idx : String → Option DiagNode) : Option DiagNode :=
  if next_raw = "" then none
  else
    firstResolving idx
      ((splitOnChar ',' next_raw.data).map (fun cs => String.mk (stripChars cs)))

/-- Lean form of _choose_next_node: the routing config is consulted first,
and only when it is present with a non-empty next_nodes_map; when that
yields nothing the comma-separated next_raw list is consulted. -/
def choose_next_node (user_input : String) (current : DiagNode)
    (idx : String → Option DiagNode) : Option DiagNode :=
  let viaRouting :=
    match current.routing with
    | some rc =>
      if rc.next_nodes_map ≠ [] then choose_by_routing user_input current idx else none
    | none => none
  match viaRouting with
  | some n => some n
  | none => nextRawChoice current.next_raw idx

/-- Label put before the result field of a terminal node. -/
def resultLabel : String := "診断結果:\n"

/-- Label put before the steps field of a terminal node. -/
def stepsLabel : String := "修理手順:\n"

/-- Label put before the cautions field of a terminal node. -/
def cautionsLabel : String := "注意事項:\n"

/-- Text returned at a terminal node whose three text fields are all
empty. -/
def doneText : String := "診断完了"

/-- Header of the fallback text of run_diagnostic_routing. -/
def fallbackHeader : String := "フォールバック診断（暫定）:\n"

/-- Separator between assembled output sections: one blank line. -/
def blankJoin : String := "\n\n"

/-- Output assembly at a terminal node: the non-empty result, steps and
cautions fields in this fixed order, each prefixed by its label, joined by
blank lines; the fixed completion text when all three are empty. -/
def assembleTerminal (n : DiagNode) : String :=
  let parts :=
    (if n.result ≠ "" then [resultLabel ++ n.result] else []) ++
    (if n.steps ≠ "" then [stepsLabel ++ n.steps] else []) ++
    (if n.cautions ≠ "" then [cautionsLabel ++ n.cautions] else [])
  if parts = [] then doneText else blankJoin.intercalate parts

/-- The fallback dictionary of run_diagnostic_routing: text is the fixed
header followed by the user input verbatim, and the end flag is True. -/
def fallbackResult (user_input : String) : DiagResult :=
  ⟨fallbackHeader ++ user_input, true⟩

/-- The hop loop of run_diagnostic_routing with the remaining iteration
count as fuel; the source iterates hop over range(20). An empty node id, a
revisited node id, or a failed next-node selection leave the loop, and
leaving the loop produces the fallback result. -/
def routingLoop (user_input : String) (idx : String → Option DiagNode) :
    Nat → List String → DiagNode → DiagResult
  | 0, _, _ => fallbackResult user_input
  | fuel + 1, seen, current =>
    if current.node_id = "" then fallbackResult user_input
    else if current.node_id ∈ seen then fallbackResult user_input
    else
      if current.terminal then ⟨assembleTerminal current, true⟩
      else
        match choose_next_node user_input current idx with
        | none => fallbackResult user_input
        | some nxt => routingLoop user_input idx fuel (current.node_id :: seen) nxt

/-- Lean form of run_diagnostic_routing: diagnostic_data is None or the
node list held under the nodes key of the data dictionary; falsy data, an
empty node list, or the absence of a start-flagged node short-circuit to
the fallback result, and otherwise the hop loop starts at the first
start-flagged node with twenty units of fuel. -/
def run_diagnostic_routing (user_input : String)
    (diagnostic_data : Option (List DiagNode)) : DiagResult :=
  match diagnostic_data with
  | none => fallbackResult user_input
  | some nodes =>
    if nodes = [] then fallbackResult user_input
    else
      match nodes.filter (fun n => n.start) with
      | [] => fallbackResult user_input
      | s :: _ => routingLoop user_input (node_index nodes) 20 [] s

/-- Instrumented hop loop: alongside the result it reports the number of
node-to-node transitions taken and the terminal node reached, if any. -/
def routingLoopTrace (user_input : String) (idx : String → Option DiagNode) :
    Nat → List String → DiagNode → DiagResult × Nat × Option DiagNode
  | 0, _, _ => (fallbackResult user_input, 0, none)
  | fuel + 1, seen, current =>
    if current.node_id = "" then (fallbackResult user_input, 0, none)
    else if current.node_id ∈ seen then (fallbackResult user_input, 0, none)
    else
      if current.terminal then (⟨assembleTerminal current, true⟩, 0, some current)
      else
        match choose_next_node user_input current idx with
        | none => (fallbackResult user_input, 0, none)
        | some nxt =>
          let t := routingLoopTrace user_input idx fuel (current.node_id :: seen) nxt
          (t.1, t.2.1 + 1, t.2.2)

/-- Instrumented form of run_diagnostic_routing built on the instrumented
hop loop. -/
def runTrace (user_input : String) (diagnostic_data : Option (List DiagNode)) :
    DiagResult × Nat × Option DiagNode :=
  match diagnostic_data with
  | none => (fallbackResult user_input, 0, none)
  | some nodes =>
    if nodes = [] then (fallbackResult user_input, 0, none)
    else
      match nodes.filter (fun n => n.start) with
      | [] => (fallbackResult user_input, 0, none)
      | s :: _ => routingLoopTrace user_input (node_index nodes) 20 [] s

/-- Abstract JSON values produced by the model of json.loads; numbers are
modelled as integers and strings carry no escape sequences, which covers
the annotation format consumed by the routing-config parser. -/
inductive Json where
  | null : Json
  | bool (b : Bool) : Json
  | num (n : Int) : Json
  | str (s : String) : Json
  | arr (elems : List Json) : Json
  | obj (members : List (String × Json)) : Json

/-- Opening brace character. -/
def lbrace : Char := Char.ofNat 123

/-- Closing brace character. -/
def rbrace : Char := Char.ofNat 125

/-- Whitespace skipped between JSON tokens. -/
def skipWs : List Char → List Char
  | [] => []
  | c :: rest =>
    if c = ' ' ∨ c = '\t' ∨ c = '\n' ∨ c = '\r' then skipWs rest else c :: rest

/-- Value of one hexadecimal digit. -/
def hexVal (c : Char) : Option Nat :=
  if '0' ≤ c ∧ c ≤ '9' then some (c.toNat - 48)
  else if 'a' ≤ c ∧ c ≤ 'f' then some (c.toNat - 87)
  else if 'A' ≤ c ∧ c ≤ 'F' then some (c.toNat - 55)
  else none

/-- Decoded character of a simple JSON escape sequence. -/
def escChar (c : Char) : Option Char :=
  if c = '"' then some '"'
  else if c = '\\' then some '\\'
  else if c = '/' then some '/'
  else if c = 'b' then some (Char.ofNat 8)
  else if c = 'f' then some (Char.ofNat 12)
  else if c = 'n' then some '\n'
  else if c = 'r' then some '\r'
  else if c = 't' then some '\t'
  else none

/-- Characters of a JSON string literal up to the closing quote, decoding
the simple escape sequences and the four-hex-digit unicode escapes that
json.loads decodes; surrogate code points, which a Lean character cannot
carry, are outside the modelled subset and make the parse fail. -/
def parseStrChars : List Char → Option (List Char × List Char)
  | [] => none
  | c :: rest =>
    if c = '"' then some ([], rest)
    else if c = '\\' then
      match rest with
      | [] => none
      | e :: rest2 =>
        if e = 'u' then
          match rest2 with
          | h1 :: h2 :: h3 :: h4 :: rest3 =>
            match hexVal h1, hexVal h2, hexVal h3, hexVal h4 with
            | some v1, some v2, some v3, some v4 =>
              let v := ((v1 * 16 + v2) * 16 + v3) * 16 + v4
              if 55296 ≤ v ∧ v ≤ 57343 then none
              else (parseStrChars rest3).map (fun p => (Char.ofNat v :: p.1, p.2))
            | _, _, _, _ => none
          | _ => none
        else
          match escChar e with
          | some d => (parseStrChars rest2).map (fun p => (d :: p.1, p.2))
          | none => none
    else (parseStrChars rest).map (fun p => (c :: p.1, p.2))

/-- A JSON string literal including its opening quote. -/
def parseStringLit : List Char → Option (String × List Char)
  | [] => none
  | c :: rest =>
    if c = '"' then (parseStrChars rest).map (fun p => (String.mk p.1, p.2))
    else none

/-- Longest leading run of decimal digits. -/
def takeDigits : List Char → List Char × List Char
  | [] => ([], [])
  | c :: rest =>
    if c.isDigit then
      let p := takeDigits rest
      (c :: p.1, p.2)
    else ([], c :: rest)

/-- Numeric value of a digit run. -/
def digitsToNat (ds : List Char) : Nat :=
  ds.foldl (fun acc c => acc * 10 + (c.toNat - 48)) 0

/-- A JSON integer literal with an optional leading minus sign. -/
def parseNumber (cs : List Char) : Option (Json × List Char) :=
  match cs with
  | '-' :: rest =>
    match takeDigits rest with
    | ([], _) => none
    | (ds, r) => some (Json.num (-(digitsToNat ds : Int)), r)
  | _ =>
    match takeDigits cs with
    | ([], _) => none
    | (ds, r) => some (Json.num (digitsToNat ds : Int), r)

/-- What a recursive JSON parse step is asked to produce: a single value,
the members of an object after its opening brace, or the elements of an
array after its opening bracket. -/
inductive PKind where
  | val : PKind
  | members : PKind
  | elems : PKind
deriving DecidableEq, Repr

/-- Result of a recursive JSON parse step. -/
inductive PRes where
  | v (j : Json) : PRes
  | ms (kvs : List (String × Json)) : PRes
  | es (js : List Json) : PRes

/-- Fuel-bounded recursive-descent parser modelling json.loads on the
subset used by the annotation format: objects, arrays, strings without
escape sequences, integers, booleans and null. -/
def parseAny : Nat → PKind → List Char → Option (PRes × List Char)
  | 0, _, _ => none
  | fuel + 1, PKind.val, cs =>
    match skipWs cs with
    | [] => none
    | c :: rest =>
      if c = lbrace then
        match skipWs rest with
        | [] => none
        | d :: r2 =>
          if d = rbrace then some (PRes.v (Json.obj []), r2)
          else
            match parseAny fuel PKind.members (skipWs rest) with
            | some (PRes.ms kvs, r) => some (PRes.v (Json.obj kvs), r)
            | _ => none
      else if c = '[' then
        match skipWs rest with
        | [] => none
        | d :: r2 =>
          if d = ']' then some (PRes.v (Json.arr []), r2)
          else
            match parseAny fuel PKind.elems (skipWs rest) with
            | some (PRes.es js, r) => some (PRes.v (Json.arr js), r)
            | _ => none
      else if c = '"' then
        match parseStringLit (c :: rest) with
        | some (s, r) => some (PRes.v (Json.str s), r)
        | none => none
      else if beginsWith (c :: rest) ("true".data) then
        some (PRes.v (Json.bool true), (c :: rest).drop 4)
      else if beginsWith (c :: rest) ("false".data) then
        some (PRes.v (Json.bool false), (c :: rest).drop 5)
      else if beginsWith (c :: rest) ("null".data) then
        some (PRes.v Json.null, (c :: rest).drop 4)
      else
        match parseNumber (c :: rest) with
        | some (j, r) => some (PRes.v j, r)
        | none => none
  | fuel + 1, PKind.members, cs =>
    match parseStringLit (skipWs cs) with
    | none => none
    | some (k, cs2) =>
      match skipWs cs2 with
      | [] => none
      | c0 :: cs4 =>
        if c0 = ':' then
          match parseAny fuel PKind.val cs4 with
          | some (PRes.v v, cs5) =>
            match skipWs cs5 with
            | [] => none
            | c :: cs7 =>
              if c = ',' then
                match parseAny fuel PKind.members cs7 with
                | some (PRes.ms kvs, r) => some (PRes.ms ((k, v) :: kvs), r)
                | _ => none
              else if c = rbrace then some (PRes.ms [(k, v)], cs7)
              else none
          | _ => none
        else none
  | fuel + 1, PKind.elems, cs =>
    match parseAny fuel PKind.val cs with
    | some (PRes.v v, cs2) =>
      match skipWs cs2 with
      | [] => none
      | c :: cs4 =>
        if c = ',' then
          match parseAny fuel PKind.elems cs4 with
          | some (PRes.es js, r) => some (PRes.es (v :: js), r)
          | _ => none
        else if c = ']' then some (PRes.es [v], cs4)
        else none
    | _ => none

/-- Model of json.loads: parse one JSON value and require only trailing
whitespace after it. -/
def json_loads (s : String) : Option Json :=
  match parseAny (s.data.length + 1) PKind.val s.data with
  | some (PRes.v j, rest) => if skipWs rest = [] then some j else none
  | _ => none

/-- Python dict lookup on a parsed object: with duplicate keys json.loads
keeps the last value, so the fold keeps the last match. -/
def objGet (key : String) (kvs : List (String × Json)) : Option Json :=
  kvs.foldl (fun acc kv => if kv.1 = key then some kv.2 else acc) none

/-- The key under which the annotation format stores the configuration. -/
def rcKey : String := "routing_config"

/-- Index of the first occurrence of a character, modelling str.find. -/
def firstIdx (cs : List Char) (c : Char) : Option Nat :=
  List.findIdx? (fun a => a = c) cs

/-- Index of the last occurrence of a character, modelling str.rfind. -/
def lastIdx (cs : List Char) (c : Char) : Option Nat :=
  (cs.foldl (fun (p : Nat × Option Nat) a => (p.1 + 1, if a = c then some p.1 else p.2))
    (0, none)).2

/-- Slice of the memo delimited by the first opening brace and the last
closing brace, both included, exactly as the source slices it; None when
the first brace is missing or the slice would be empty. -/
def extractBraces (cs : List Char) : Option (List Char) :=
  match firstIdx cs lbrace with
  | none => none
  | some i =>
    let e :=
      match lastIdx cs rbrace with
      | some j => j + 1
      | none => 0
    if i < e then some ((cs.drop i).take (e - i)) else none

/-- Lean form of _parse_routing_config: an empty memo, a memo without the
routing_config marker, a failed brace extraction, a failed JSON decode, a
non-object decode, or a missing routing_config key all yield None; a JSON
null value also surfaces as Python None. Every exception of the Python
body is caught, so the function is total. -/
def parse_routing_config (memo_content : String) : Option Json :=
  if memo_content = "" then none
  else if strContains memo_content rcKey then
    match extractBraces memo_content.data with
    | none => none
    | some ex =>
      match json_loads (String.mk ex) with
      | some (Json.obj kvs) =>
        match objGet rcKey kvs with
        | some Json.null => none
        | r => r
      | _ => none
  else none

/-- Spec-side description of the routing-config parser, written from the
spec contract: scan the text for the JSON object delimited by the first
opening and the last closing brace, attempt to decode it, and return the
routing_config entry, with None on any decode failure or missing key (a
decoded JSON null surfaces as Python None). -/
def parseRoutingConfigSpec (memo_content : String) : Option Json :=
  match extractBraces memo_content.data with
  | none => none
  | some ex =>
    match json_loads (String.mk ex) with
    | some (Json.obj kvs) =>
      match objGet rcKey kvs with
      | some Json.null => none
      | r => r
    | _ => none

/-- Key of the candidate list inside a routing configuration. -/
def nnmKey : String := "next_nodes_map"

/-- Python truthiness of a decoded JSON value. -/
def jsonTruthy : Json → Bool
  | Json.null => false
  | Json.bool b => b
  | Json.num n => decide (n ≠ 0)
  | Json.str s => decide (s ≠ "")
  | Json.arr l => !l.isEmpty
  | Json.obj kvs => !kvs.isEmpty

/-- Python exception kind raised by attribute access on a value without
that attribute. -/
inductive PyErr where
  | attributeError : PyErr
deriving DecidableEq, Repr

/-- A diagnostic node exactly as the loader builds it: the routing field
holds the raw value returned by _parse_routing_config, which can be any
decoded JSON value, not only a well-shaped configuration. -/
structure DiagNodeRaw where
  node_id : String
  start : Bool
  terminal : Bool
  next_raw : String
  result : String
  steps : String
  cautions : String
  routing : Option Json

/-- The routing-config guard at the head of _choose_next_node over the raw
routing value: Python tests the value for truthiness and then calls its
get method, which raises AttributeError whenever the value is truthy but
not a dict; on a dict it returns the next_nodes_map entry. -/
def routingGuard (routing : Option Json) : Except PyErr (Option Json) :=
  match routing with
  | none => Except.ok none
  | some j =>
    if jsonTruthy j then
      match j with
      | Json.obj kvs => Except.ok (objGet nnmKey kvs)
      | _ => Except.error PyErr.attributeError
    else Except.ok none

/-- Memo whose embedded JSON object carries the routing_config key only
through a unicode escape: the literal key text never occurs in the memo. -/
def memoEsc : String := "\x7b\"routing_confi\\u0067\": 1\x7d"

/-- Memo whose routing_config entry decodes to the bare number 5. -/
def memoNum : String := "\x7b\"routing_config\": 5\x7d"

/-- Start node as loaded from memoNum: the routing field holds the raw
number produced by the parser. -/
def rawNode : DiagNodeRaw :=
  ⟨"S", true, false, "", "", "", "", parse_routing_config memoNum⟩

/-- A candidate survives registry filtering when its id is present,
non-empty and a key of the registry: the exact complement of the skip
condition of the scoring loop. -/
def candResolves (idx : String → Option DiagNode) (c : Candidate) : Bool :=
  match c.id with
  | some cid => decide (¬(cid = "" ∨ idx cid = none))
  | none => false

/-- Spec-side fold step of candidate selection: keep the first candidate
unless a later one has a strictly higher score, or an equal score with
strictly more keywords under the specific_over_generic tie-breaker rule. -/
def specStep (u : String) (rule : Option String) (best : Option Candidate)
    (c : Candidate) : Option Candidate :=
  match best with
  | none => some c
  | some b =>
    if candScore u b < candScore u c ∨
       (candScore u c = candScore u b ∧ rule = some tieRuleSog ∧
        b.keywords.length < c.keywords.length) then some c
    else best

/-- Spec-side candidate selection, written from the spec scoring rule and
restricted to candidates resolvable in the registry: among those reaching
the threshold, the highest score wins, ties preferring more keywords under
specific_over_generic and otherwise the earliest declared candidate. -/
def specSelect (u : String) (rc : RoutingConfig)
    (idx : String → Option DiagNode) : Option Candidate :=
  ((rc.next_nodes_map.filter (candResolves idx)).filter
      (fun c => decide (rc.threshold ≤ candScore u c))).foldl
    (specStep u rc.tie_breaker_rule) none

/-- Spec-side form of _choose_by_routing built on specSelect, with the same
fallback scan when no candidate is selected. -/
def specChooseByRouting (u : String) (current : DiagNode)
    (idx : String → Option DiagNode) : Option DiagNode :=
  match current.routing with
  | none => none
  | some rc =>
    match specSelect u rc idx with
    | some c =>
      match c.id with
      | some cid => idx cid
      | none => none
    | none => fallbackScan idx rc.next_nodes_map

/-- Best-state of the scoring loop corresponding to a spec-side current
choice: None corresponds to the initial state with score -1 and keyword
count 0. -/
def stateOf (u : String) : Option Candidate → BestState
  | none => ⟨none, -1, 0⟩
  | some c => ⟨some c, candScore u c, c.keywords.length⟩

/-- The routing-rule part of _choose_next_node: the routing config is
consulted only when present with a non-empty next_nodes_map. -/
def routingRulePart (user_input : String) (current : DiagNode)
    (idx : String → Option DiagNode) : Option DiagNode :=
  match current.routing with
  | some rc =>
    if rc.next_nodes_map ≠ [] then choose_by_routing user_input current idx else none
  | none => none

/-- Spec-side description of terminal assembly: the labelled sections of
the non-empty fields in fixed order, joined by blank lines, with the fixed
completion text when no section exists. -/
def specAssemble (n : DiagNode) : String :=
  let sections := List.filter (fun s => s ≠ "")
    [if n.result = "" then "" else resultLabel ++ n.result,
     if n.steps = "" then "" else stepsLabel ++ n.steps,
     if n.cautions = "" then "" else cautionsLabel ++ n.cautions]
  if sections = [] then doneText else blankJoin.intercalate sections

/-- Example node without the start flag. -/
def exA : DiagNode := ⟨"A", false, false, "", "", "", "", none⟩

/-- Example start-flagged terminal node with result and steps text. -/
def exB : DiagNode := ⟨"B", true, true, "", "fromB", "", "", none⟩

/-- Second start-flagged terminal node, declared after exB. -/
def exC : DiagNode := ⟨"C", true, true, "", "fromC", "", "", none⟩

/-- Start node that is a dead end: no routing config and empty next_raw. -/
def exDead : DiagNode := ⟨"D", true, false, "", "", "", "", none⟩

/-- Start-flagged terminal node with result and steps payload. -/
def exTerm : DiagNode := ⟨"T", true, true, "", "R", "S", "", none⟩

/-- Terminal node whose three payload fields are all empty. -/
def exEmptyTerm : DiagNode := ⟨"E", true, true, "", "", "", "", none⟩

/-- Candidate whose target X is absent from the example registry. -/
def exCandX : Candidate := ⟨some "X", ["a"], 5, false⟩

/-- Candidate whose target Y is present in the example registry. -/
def exCandY : Candidate := ⟨some "Y", [], 1, false⟩

/-- Routing config with an unresolvable top-scoring candidate. -/
def exRC : RoutingConfig := ⟨[exCandX, exCandY], 0, none⟩

/-- Start node carrying the routing config exRC. -/
def exStart : DiagNode := ⟨"S", true, false, "", "", "", "", some exRC⟩

/-- Terminal node reached through candidate Y. -/
def exNodeY : DiagNode := ⟨"Y", false, true, "", "Yres", "", "", none⟩

/-- Candidate of the keyword-scoring example: one keyword, weight 2. -/
def batCandX : Candidate := ⟨some "X", ["battery"], 2, false⟩

/-- Candidate of the keyword-scoring example: one keyword, weight 3. -/
def batCandY : Candidate := ⟨some "Y", ["leak"], 3, false⟩

/-- Routing config of the keyword-scoring example, threshold 1. -/
def batRC : RoutingConfig := ⟨[batCandX, batCandY], 1, none⟩

/-- Start node carrying the keyword-scoring example config. -/
def batStart : DiagNode := ⟨"S", true, false, "", "", "", "", some batRC⟩

/-- Target X of the keyword-scoring example. -/
def batX : DiagNode := ⟨"X", false, true, "", "", "", "", none⟩

/-- Target Y of the keyword-scoring example. -/
def batY : DiagNode := ⟨"Y", false, true, "", "", "", "", none⟩

/-- Tie-break example candidate declared first: score 2 with one keyword. -/
def tieCand1 : Candidate := ⟨some "T1", ["p"], 2, false⟩

/-- Tie-break example candidate declared second: score 2 with three
keywords. -/
def tieCand2 : Candidate := ⟨some "T2", ["p", "x", "y"], 2, false⟩

/-- Routing config of the tie-break example with the specific_over_generic
rule. -/
def tieRC : RoutingConfig := ⟨[tieCand1, tieCand2], 1, some tieRuleSog⟩

/-- Start node carrying the tie-break example config. -/
def tieStart : DiagNode := ⟨"S", true, false, "", "", "", "", some tieRC⟩

/-- Target T1 of the tie-break example. -/
def tieN1 : DiagNode := ⟨"T1", false, true, "", "", "", "", none⟩

/-- Target T2 of the tie-break example. -/
def tieN2 : DiagNode := ⟨"T2", false, true, "", "", "", "", none⟩

/-- Below-threshold candidate whose target does not exist. -/
def fbCand1 : Candidate := ⟨some "N9", ["zz"], 1, false⟩

/-- Fallback-flagged candidate whose target exists. -/
def fbCand2 : Candidate := ⟨some "F1", [], 1, true⟩

/-- Routing config in which no candidate can reach the threshold 5. -/
def fbRC : RoutingConfig := ⟨[fbCand1, fbCand2], 5, none⟩

/-- Node carrying the below-threshold config. -/
def fbCur : DiagNode := ⟨"C", true, false, "", "", "", "", some fbRC⟩

/-- Target of the fallback-flagged candidate. -/
def fbNode : DiagNode := ⟨"F1", false, true, "", "", "", "", none⟩

/-- Node without routing config whose next_raw lists N2 then N3. -/
def nrCur : DiagNode := ⟨"C2", true, false, "N2, N3", "", "", "", none⟩

/-- Registry node N3; N2 does not exist. -/
def nrN3 : DiagNode := ⟨"N3", false, true, "", "", "", "", none⟩

/-- Example user input X. -/
def uX : String := "X"

/-- Example user input q. -/
def uQ : String := "q"

/-- Example user input consisting of the single keyword letter. -/
def uA : String := "a"

/-- User input of the keyword-scoring example of the spec. -/
def uBat : String := "battery issue"

/-- User input of the tie-break example. -/
def uP : String := "p"

end CamperRepair

namespace CamperRepair

lemma routingLoopTrace_fst (u : String) (idx : String → Option DiagNode) :
    ∀ (fuel : Nat) (seen : List String) (cur : DiagNode),
      (routingLoopTrace u idx fuel seen cur).1 = routingLoop u idx fuel seen cur := by
  intro fuel
  induction fuel with
  | zero => intro seen cur; rfl
  | succ f ih =>
    intro seen cur
    by_cases h1 : cur.node_id = ""
    · simp [routingLoopTrace, routingLoop, h1]
    · by_cases h2 : cur.node_id ∈ seen
      · simp [routingLoopTrace, routingLoop, h1, h2]
      · by_cases h3 : cur.terminal
        · simp [routingLoopTrace, routingLoop, h1, h2, h3]
        · cases h4 : choose_next_node u cur idx with
          | none => simp [routingLoopTrace, routingLoop, h1, h2, h3, h4]
          | some nxt => simp [routingLoopTrace, routingLoop, h1, h2, h3, h4, ih]

lemma routingLoopTrace_hops (u : String) (idx : String → Option DiagNode) :
    ∀ (fuel : Nat) (seen : List String) (cur : DiagNode),
      (routingLoopTrace u idx fuel seen cur).2.1 ≤ fuel := by
  intro fuel
  induction fuel with
  | zero => intro seen cur; simp [routingLoopTrace]
  | succ f ih =>
    intro seen cur
    by_cases h1 : cur.node_id = ""
    · simp [routingLoopTrace, h1]
    · by_cases h2 : cur.node_id ∈ seen
      · simp [routingLoopTrace, h1, h2]
      · by_cases h3 : cur.terminal
        · simp [routingLoopTrace, h1, h2, h3]
        · cases h4 : choose_next_node u cur idx with
          | none => simp [routingLoopTrace, h1, h2, h3, h4]
          | some nxt =>
            have := ih (cur.node_id :: seen) nxt
            simp [routingLoopTrace, h1, h2, h3, h4]
            omega

lemma routingLoopTrace_terminal (u : String) (idx : String → Option DiagNode) :
    ∀ (fuel : Nat) (seen : List String) (cur : DiagNode) (n : DiagNode),
      (routingLoopTrace u idx fuel seen cur).2.2 = some n →
      n.terminal = true ∧
        (routingLoopTrace u idx fuel seen cur).1 = ⟨assembleTerminal n, true⟩ := by
  intro fuel
  induction fuel with
  | zero => intro seen cur n h; simp [routingLoopTrace] at h
  | succ f ih =>
    intro seen cur n h
    by_cases h1 : cur.node_id = ""
    · simp [routingLoopTrace, h1] at h
    · by_cases h2 : cur.node_id ∈ seen
      · simp [routingLoopTrace, h1, h2] at h
      · by_cases h3 : cur.terminal
        · simp [routingLoopTrace, h1, h2, h3] at h ⊢
          exact ⟨h ▸ h3, by rw [h]⟩
        · cases h4 : choose_next_node u cur idx with
          | none => simp [routingLoopTrace, h1, h2, h3, h4] at h
          | some nxt =>
            simp only [routingLoopTrace, h1, h2, h3, h4] at h ⊢
            simp at h ⊢
            exact ih (cur.node_id :: seen) nxt n h

lemma routingLoopTrace_none (u : String) (idx : String → Option DiagNode) :
    ∀ (fuel : Nat) (seen : List String) (cur : DiagNode),
      (routingLoopTrace u idx fuel seen cur).2.2 = none →
      (routingLoopTrace u idx fuel seen cur).1 = fallbackResult u := by
  intro fuel
  induction fuel with
  | zero => intro seen cur _; rfl
  | succ f ih =>
    intro seen cur h
    by_cases h1 : cur.node_id = ""
    · simp [routingLoopTrace, h1]
    · by_cases h2 : cur.node_id ∈ seen
      · simp [routingLoopTrace, h1, h2]
      · by_cases h3 : cur.terminal
        · simp [routingLoopTrace, h1, h2, h3] at h
        · cases h4 : choose_next_node u cur idx with
          | none => simp [routingLoopTrace, h1, h2, h3, h4]
          | some nxt =>
            simp only [routingLoopTrace, h1, h2, h3, h4] at h ⊢
            simp at h ⊢
            exact ih (cur.node_id :: seen) nxt h

lemma routingLoop_shape (u : String) (idx : String → Option DiagNode) :
    ∀ (fuel : Nat) (seen : List String) (cur : DiagNode),
      routingLoop u idx fuel seen cur = fallbackResult u ∨
        ∃ n : DiagNode, n.terminal = true ∧
          routingLoop u idx fuel seen cur = ⟨assembleTerminal n, true⟩ := by
  intro fuel
  induction fuel with
  | zero => intro seen cur; exact Or.inl rfl
  | succ f ih =>
    intro seen cur
    by_cases h1 : cur.node_id = ""
    · exact Or.inl (by simp [routingLoop, h1])
    · by_cases h2 : cur.node_id ∈ seen
      · exact Or.inl (by simp [routingLoop, h1, h2])
      · by_cases h3 : cur.terminal
        · exact Or.inr ⟨cur, h3, by simp [routingLoop, h1, h2, h3]⟩
        · cases h4 : choose_next_node u cur idx with
          | none => exact Or.inl (by simp [routingLoop, h1, h2, h3, h4])
          | some nxt =>
            have := ih (cur.node_id :: seen) nxt
            simpa [routingLoop, h1, h2, h3, h4] using this

lemma runTrace_fst (u : String) (dd : Option (List DiagNode)) :
    (runTrace u dd).1 = run_diagnostic_routing u dd := by
  cases dd with
  | none => rfl
  | some nodes =>
    by_cases h : nodes = []
    · simp [runTrace, run_diagnostic_routing, h]
    · cases hf : nodes.filter (fun n => n.start) with
      | nil => simp [runTrace, run_diagnostic_routing, h, hf]
      | cons s rest =>
        simp [runTrace, run_diagnostic_routing, h, hf, routingLoopTrace_fst]

lemma run_shape (u : String) (dd : Option (List DiagNode)) :
    run_diagnostic_routing u dd = fallbackResult u ∨
      ∃ n : DiagNode, n.terminal = true ∧
        run_diagnostic_routing u dd = ⟨assembleTerminal n, true⟩ := by
  cases dd with
  | none => exact Or.inl rfl
  | some nodes =>
    by_cases h : nodes = []
    · exact Or.inl (by simp [run_diagnostic_routing, h])
    · cases hf : nodes.filter (fun n => n.start) with
      | nil => exact Or.inl (by simp [run_diagnostic_routing, h, hf])
      | cons s rest =>
        have := routingLoop_shape u (node_index nodes) 20 [] s
        simpa [run_diagnostic_routing, h, hf] using this

lemma runTrace_eq_loop (u : String) (nodes : List DiagNode) (s : DiagNode)
    (rest : List DiagNode) (hne : nodes ≠ [])
    (hf : nodes.filter (fun n => n.start) = s :: rest) :
    runTrace u (some nodes) = routingLoopTrace u (node_index nodes) 20 [] s ∧
    run_diagnostic_routing u (some nodes) = routingLoop u (node_index nodes) 20 [] s := by
  constructor
  · simp [runTrace, hne, hf]
  · simp [run_diagnostic_routing, hne, hf]

lemma runTrace_terminal (u : String) (dd : Option (List DiagNode)) (n : DiagNode)
    (h : (runTrace u dd).2.2 = some n) :
    n.terminal = true ∧ run_diagnostic_routing u dd = ⟨assembleTerminal n, true⟩ := by
  cases dd with
  | none => simp [runTrace] at h
  | some nodes =>
    by_cases hne : nodes = []
    · simp [runTrace, hne] at h
    · cases hf : nodes.filter (fun m => m.start) with
      | nil => simp [runTrace, hne, hf] at h
      | cons s rest =>
        have he := runTrace_eq_loop u nodes s rest hne hf
        rw [he.1] at h
        have ht := routingLoopTrace_terminal u (node_index nodes) 20 [] s n h
        refine ⟨ht.1, ?_⟩
        rw [he.2, ← routingLoopTrace_fst, ht.2]

lemma runTrace_none_fallback (u : String) (dd : Option (List DiagNode))
    (h : (runTrace u dd).2.2 = none) :
    run_diagnostic_routing u dd = fallbackResult u := by
  cases dd with
  | none => rfl
  | some nodes =>
    by_cases hne : nodes = []
    · simp [run_diagnostic_routing, hne]
    · cases hf : nodes.filter (fun m => m.start) with
      | nil => simp [run_diagnostic_routing, hne, hf]
      | cons s rest =>
        have he := runTrace_eq_loop u nodes s rest hne hf
        rw [he.1] at h
        rw [he.2, ← routingLoopTrace_fst]
        exact routingLoopTrace_none u (node_index nodes) 20 [] s h

lemma run_endFlag (u : String) (dd : Option (List DiagNode)) :
    (run_diagnostic_routing u dd).endFlag = true := by
  rcases run_shape u dd with h | ⟨n, _, h⟩
  · rw [h]; rfl
  · rw [h]

/-- C1 counterexample: a failing traversal (dead-end start node) and a
successful traversal (terminal start node) return records whose only
boolean field carries the same value true, so the returned record has no
resolved flag that is false exactly on fallback, and the failing run
returns only the echoed text, no visited path. -/
theorem c1_result_contract_counterexample :
    run_diagnostic_routing uX (some [exDead]) = fallbackResult uX ∧
    (run_diagnostic_routing uX (some [exDead])).endFlag =
      (run_diagnostic_routing uX (some [exTerm])).endFlag ∧
    run_diagnostic_routing uX (some [exTerm]) ≠ fallbackResult uX := by
  exact ⟨by decide, by decide, by decide⟩

/-- C1 amended: run_diagnostic_routing returns a record with a text string
and a boolean end field only (no resolved flag, no path); on every input
whose traversal fails to reach a terminal node the result is exactly the
fallback record, whose text is the fixed header followed by the original
user text verbatim and whose end field is true — the same value the field
has on success, so a caller distinguishes fallback by the text, not by a
boolean field. -/
theorem c1_fallback_shape (u : String) (dd : Option (List DiagNode)) :
    (runTrace u dd).1 = run_diagnostic_routing u dd ∧
    (run_diagnostic_routing u dd).endFlag = true ∧
    ((runTrace u dd).2.2 = none → run_diagnostic_routing u dd = fallbackResult u) ∧
    (fallbackResult u).text = fallbackHeader ++ u :=
  ⟨runTrace_fst u dd, run_endFlag u dd, runTrace_none_fallback u dd, rfl⟩

/-- Witness for C1: the dead-end run has no terminal node in its trace and
the theorem yields the exact fallback record. -/
theorem c1_fallback_shape_witness :
    run_diagnostic_routing uX (some [exDead]) = fallbackResult uX :=
  (c1_fallback_shape uX (some [exDead])).2.2.1 (by decide)

/-- C3: for every user text and diagnostic data the engine returns a result
(it is a total function agreeing with its instrumented form) and the
traversal performs at most twenty node-to-node transitions, the fixed hop
limit. -/
theorem c3_termination_bound (u : String) (dd : Option (List DiagNode)) :
    (runTrace u dd).1 = run_diagnostic_routing u dd ∧ (runTrace u dd).2.1 ≤ 20 := by
  refine ⟨runTrace_fst u dd, ?_⟩
  cases dd with
  | none => simp [runTrace]
  | some nodes =>
    by_cases h : nodes = []
    · simp [runTrace, h]
    · cases hf : nodes.filter (fun n => n.start) with
      | nil => simp [runTrace, h, hf]
      | cons s rest =>
        simpa [runTrace, h, hf] using routingLoopTrace_hops u (node_index nodes) 20 [] s

/-- C8 counterexample: with a single non-start node the engine returns the
fallback record, whose only boolean field is true; there is no resolved
field that is false. -/
theorem c8_no_start_counterexample :
    run_diagnostic_routing uX (some [exA]) = ⟨fallbackHeader ++ uX, true⟩ ∧
    (run_diagnostic_routing uX (some [exA])).endFlag ≠ false := by
  exact ⟨by decide, by decide⟩

/-- C8 amended: traversal begins at the first node in input order whose
start flag is true, and when no node has the flag the engine immediately
returns the fallback record, whose text contains the user text verbatim
and whose boolean end field is true. -/
theorem c8_start_selection (u : String) (nodes : List DiagNode) (s : DiagNode)
    (rest : List DiagNode) :
    (nodes.filter (fun n => n.start) = s :: rest → nodes ≠ [] →
      run_diagnostic_routing u (some nodes) =
        routingLoop u (node_index nodes) 20 [] s) ∧
    (nodes.filter (fun n => n.start) = [] →
      run_diagnostic_routing u (some nodes) = ⟨fallbackHeader ++ u, true⟩) := by
  constructor
  · intro hf hne
    simp [run_diagnostic_routing, hne, hf]
  · intro hf
    by_cases h : nodes = []
    · simp [run_diagnostic_routing, h]
      rfl
    · simp [run_diagnostic_routing, h, hf]
      rfl

/-- Witness for C8: with nodes A (start false), B (start true), C (start
true) the traversal begins at B, the first start-flagged node in order. -/
theorem c8_start_selection_witness :
    run_diagnostic_routing uQ (some [exA, exB, exC]) =
      routingLoop uQ (node_index [exA, exB, exC]) 20 [] exB ∧
    run_diagnostic_routing uQ (some [exA, exB, exC]) = ⟨resultLabel ++ "fromB", true⟩ :=
  ⟨(c8_start_selection uQ [exA, exB, exC] exB [exC]).1 (by decide) (by decide), by decide⟩

/-- C10: a traversal that reaches a terminal node whose result, steps and
cautions fields are all empty returns the fixed non-empty completion text,
not the empty string. -/
theorem c10_empty_terminal_default (u : String) (dd : Option (List DiagNode))
    (n : DiagNode) (h : (runTrace u dd).2.2 = some n) (hr : n.result = "")
    (hs : n.steps = "") (hc : n.cautions = "") :
    run_diagnostic_routing u dd = ⟨doneText, true⟩ ∧ doneText ≠ "" := by
  have ht := runTrace_terminal u dd n h
  refine ⟨?_, by decide⟩
  rw [ht.2]
  have : assembleTerminal n = doneText := by
    simp [assembleTerminal, hr, hs, hc]
  rw [this]

lemma label_append_ne (lab : String) (hlab : lab.data ≠ []) (s : String) :
    lab ++ s ≠ "" := by
  intro h
  apply hlab
  have hd : (lab ++ s).data = [] := by rw [h]
  rw [String.data_append] at hd
  exact (List.append_eq_nil.mp hd).1

lemma assembleTerminal_eq_spec (n : DiagNode) : assembleTerminal n = specAssemble n := by
  have h1 := label_append_ne resultLabel (by decide) n.result
  have h2 := label_append_ne stepsLabel (by decide) n.steps
  have h3 := label_append_ne cautionsLabel (by decide) n.cautions
  unfold assembleTerminal specAssemble
  by_cases hr : n.result = "" <;> by_cases hs : n.steps = "" <;>
    by_cases hc : n.cautions = "" <;>
    simp [hr, hs, hc, h1, h2, h3]

/-- C9: when traversal reaches a terminal node, the output text is the
assembly of the non-empty result, steps and cautions fields in this fixed
order, each prefixed with its fixed label and joined by blank lines; the
concrete terminal node with result R, steps S and empty cautions yields
the two sections joined by one blank line with no cautions section at
all. -/
theorem c9_terminal_assembly :
    (∀ (u : String) (dd : Option (List DiagNode)) (n : DiagNode),
        (runTrace u dd).2.2 = some n →
        run_diagnostic_routing u dd = ⟨assembleTerminal n, true⟩) ∧
    (∀ n : DiagNode, assembleTerminal n = specAssemble n) ∧
    assembleTerminal exTerm = "診断結果:\nR\n\n修理手順:\nS" ∧
    strContains (assembleTerminal exTerm) cautionsLabel = false :=
  ⟨fun u dd n h => (runTrace_terminal u dd n h).2, assembleTerminal_eq_spec,
    by decide, by decide⟩

/-- Witness for C9: a run reaching the terminal node with result R, steps
S and no cautions returns the two labelled sections joined by a blank
line. -/
theorem c9_terminal_assembly_witness :
    run_diagnostic_routing uX (some [exTerm]) = ⟨"診断結果:\nR\n\n修理手順:\nS", true⟩ := by
  have h := c9_terminal_assembly.1 uX (some [exTerm]) exTerm (by decide)
  rw [h]
  decide

lemma candResolves_true_iff (idx : String → Option DiagNode) (c : Candidate) :
    candResolves idx c = true ↔
      ∃ cid, c.id = some cid ∧ ¬(cid = "" ∨ idx cid = none) := by
  cases hid : c.id with
  | none => simp [candResolves, hid]
  | some cid => simp [candResolves, hid]

lemma routingStep_skip (u : String) (idx : String → Option DiagNode)
    (rc : RoutingConfig) (st : BestState) (c : Candidate)
    (h : candResolves idx c = false) : routingStep u idx rc st c = st := by
  cases hid : c.id with
  | none => simp [routingStep, hid]
  | some cid =>
    have hcond : cid = "" ∨ idx cid = none := by
      have h2 := h
      simp [candResolves, hid] at h2
      exact or_iff_not_imp_left.mpr h2
    simp [routingStep, hid, hcond]

lemma routingStep_below (u : String) (idx : String → Option DiagNode)
    (rc : RoutingConfig) (st : BestState) (c : Candidate)
    (hth : ¬ rc.threshold ≤ candScore u c) :
    routingStep u idx rc st c = st := by
  cases hid : c.id with
  | none => simp [routingStep, hid]
  | some cid =>
    by_cases hcond : cid = "" ∨ idx cid = none
    · simp [routingStep, hid, hcond]
    · simp [routingStep, hid, hcond, hth]

lemma routingStep_eligible (u : String) (idx : String → Option DiagNode)
    (rc : RoutingConfig) (b : Option Candidate) (c : Candidate)
    (hth0 : 0 ≤ rc.threshold)
    (hres : candResolves idx c = true)
    (hth : rc.threshold ≤ candScore u c) :
    routingStep u idx rc (stateOf u b) c =
      stateOf u (specStep u rc.tie_breaker_rule b c) := by
  obtain ⟨cid, hid, hcond⟩ := (candResolves_true_iff idx c).mp hres
  cases b with
  | none =>
    have hpos : (-1 : Int) < candScore u c := by omega
    simp [routingStep, hid, hcond, stateOf, specStep, hth, hpos]
  | some bc =>
    by_cases hbet : candScore u bc < candScore u c ∨
        (candScore u c = candScore u bc ∧ rc.tie_breaker_rule = some tieRuleSog ∧
          bc.keywords.length < c.keywords.length)
    · simp [routingStep, hid, hcond, stateOf, specStep, hth, hbet]
    · simp [routingStep, hid, hcond, stateOf, specStep, hth, hbet]

lemma foldl_routingStep_spec (u : String) (idx : String → Option DiagNode)
    (rc : RoutingConfig) (hth0 : 0 ≤ rc.threshold) :
    ∀ (cands : List Candidate) (b : Option Candidate),
      cands.foldl (routingStep u idx rc) (stateOf u b) =
        stateOf u
          (((cands.filter (candResolves idx)).filter
              (fun c => decide (rc.threshold ≤ candScore u c))).foldl
            (specStep u rc.tie_breaker_rule) b) := by
  intro cands
  induction cands with
  | nil => intro b; rfl
  | cons c rest ih =>
    intro b
    by_cases hres : candResolves idx c = true
    · by_cases hth : rc.threshold ≤ candScore u c
      · rw [List.foldl_cons, routingStep_eligible u idx rc b c hth0 hres hth]
        rw [List.filter_cons_of_pos hres,
            List.filter_cons_of_pos (by simpa using hth), List.foldl_cons]
        exact ih (specStep u rc.tie_breaker_rule b c)
      · rw [List.foldl_cons, routingStep_below u idx rc _ c hth]
        rw [List.filter_cons_of_pos hres,
            List.filter_cons_of_neg (by simpa using hth)]
        exact ih b
    · rw [List.foldl_cons,
          routingStep_skip u idx rc _ c (Bool.eq_false_iff.mpr hres),
          List.filter_cons_of_neg hres]
      exact ih b

lemma fallbackScan_some (idx : String → Option DiagNode) :
    ∀ (cands : List Candidate) (n : DiagNode),
      fallbackScan idx cands = some n → ∃ cid, idx cid = some n := by
  intro cands
  induction cands with
  | nil => intro n h; simp [fallbackScan] at h
  | cons c rest ih =>
    intro n h
    by_cases hf : c.fallback = true
    · cases hid : c.id with
      | none =>
        simp only [fallbackScan, if_pos hf, hid] at h
        exact ih n h
      | some cid =>
        cases hidx : idx cid with
        | none =>
          simp only [fallbackScan, if_pos hf, hid, hidx] at h
          exact ih n h
        | some m =>
          simp only [fallbackScan, if_pos hf, hid, hidx] at h
          exact ⟨cid, by simp [hidx, h]⟩
    · simp only [fallbackScan, if_neg hf] at h
      exact ih n h

lemma foldl_routingStep_filter (u : String) (idx : String → Option DiagNode)
    (rc : RoutingConfig) :
    ∀ (cands : List Candidate) (st : BestState),
      (cands.filter (candResolves idx)).foldl (routingStep u idx rc) st =
        cands.foldl (routingStep u idx rc) st := by
  intro cands
  induction cands with
  | nil => intro st; rfl
  | cons c rest ih =>
    intro st
    by_cases h : candResolves idx c = true
    · rw [List.filter_cons_of_pos h, List.foldl_cons, List.foldl_cons]
      exact ih _
    · rw [List.filter_cons_of_neg h, List.foldl_cons,
          routingStep_skip u idx rc st c (Bool.eq_false_iff.mpr h)]
      exact ih st

lemma fallbackScan_filter (idx : String → Option DiagNode)
    (hempty : idx "" = none) :
    ∀ cands : List Candidate,
      fallbackScan idx (cands.filter (candResolves idx)) = fallbackScan idx cands := by
  intro cands
  induction cands with
  | nil => rfl
  | cons c rest ih =>
    by_cases h : candResolves idx c = true
    · obtain ⟨cid, hid, hcond⟩ := (candResolves_true_iff idx c).mp h
      rw [List.filter_cons_of_pos h]
      by_cases hf : c.fallback = true
      · cases hidx : idx cid with
        | none => exact absurd (Or.inr hidx) hcond
        | some m => simp only [fallbackScan, if_pos hf, hid, hidx]
      · simp only [fallbackScan, if_neg hf]
        exact ih
    · rw [List.filter_cons_of_neg h]
      by_cases hf : c.fallback = true
      · cases hid : c.id with
        | none =>
          simp only [fallbackScan, if_pos hf, hid]
          exact ih
        | some cid =>
          have hcond : cid = "" ∨ idx cid = none := by
            have h2 := h
            simp [candResolves, hid] at h2
            exact or_iff_not_imp_left.mpr h2
          have hnone : idx cid = none := by
            rcases hcond with hc | hc
            · rw [hc]; exact hempty
            · exact hc
          simp only [fallbackScan, if_pos hf, hid, hnone]
          exact ih
      · simp only [fallbackScan, if_neg hf]
        exact ih

lemma node_index_empty (nodes : List DiagNode) : node_index nodes "" = none := by
  have h : ∀ (l : List DiagNode) (acc : Option DiagNode),
      l.foldl (fun acc n => if n.node_id ≠ "" ∧ n.node_id = "" then some n else acc) acc
        = acc := by
    intro l
    induction l with
    | nil => intro acc; rfl
    | cons n rest ih =>
      intro acc
      rw [List.foldl_cons, if_neg (fun hn => hn.1 hn.2)]
      exact ih acc
  exact h nodes none

/-- C2 counterexample: with candidates X (keyword list [a], weight 5,
target absent from the registry) and Y (no keywords, weight 1, target
present), threshold 0 and user text a, candidate X passes the threshold
with the strictly highest score 5 yet the engine selects Y, because X is
skipped before scoring when its target id does not resolve. -/
theorem c2_scoring_counterexample :
    candScore uA exCandX = 5 ∧ candScore uA exCandY = 0 ∧
    exRC.threshold ≤ candScore uA exCandX ∧
    choose_by_routing uA exStart (node_index [exStart, exNodeY]) = some exNodeY :=
  ⟨by decide, by decide, by decide, by decide⟩

/-- C2 amended: among the candidates whose target id resolves in the
registry, each one is scored as the count of its keywords occurring as
literal case-sensitive substrings of the user text times its weight;
candidates below the threshold are discarded and, for a non-negative
threshold, the remaining candidate with the highest score is chosen, ties
preferring the candidate with more keywords under tie_breaker_rule
specific_over_generic and otherwise keeping the earliest declared
candidate; candidates whose target id does not resolve are excluded before
scoring. -/
theorem c2_scoring_spec (u : String) (cur : DiagNode)
    (idx : String → Option DiagNode)
    (h : ∀ rc, cur.routing = some rc → 0 ≤ rc.threshold) :
    choose_by_routing u cur idx = specChooseByRouting u cur idx := by
  cases hr : cur.routing with
  | none => simp [choose_by_routing, specChooseByRouting, hr]
  | some rc =>
    have hth0 := h rc hr
    have hfold2 : rc.next_nodes_map.foldl (routingStep u idx rc) (stateOf u none) =
        stateOf u (specSelect u rc idx) := by
      unfold specSelect
      exact foldl_routingStep_spec u idx rc hth0 rc.next_nodes_map none
    simp only [choose_by_routing, specChooseByRouting, hr]
    rw [show (⟨none, -1, 0⟩ : BestState) = stateOf u none from rfl, hfold2]
    cases hsel : specSelect u rc idx with
    | none => rfl
    | some c => rfl

/-- Witness for C2: on the keyword-scoring example of the spec (X scores
2, Y scores 0, threshold 1) the engine agrees with the spec-side selection
and chooses X; on the tie-break example (both score 2 under
specific_over_generic) the candidate with three keywords beats the earlier
candidate with one keyword. -/
theorem c2_scoring_spec_witness :
    choose_by_routing uBat batStart (node_index [batStart, batX, batY]) =
      specChooseByRouting uBat batStart (node_index [batStart, batX, batY]) ∧
    choose_by_routing uBat batStart (node_index [batStart, batX, batY]) = some batX ∧
    choose_by_routing uP tieStart (node_index [tieStart, tieN1, tieN2]) = some tieN2 :=
  ⟨c2_scoring_spec uBat batStart (node_index [batStart, batX, batY])
      (fun rc hrc => by
        rw [show batStart.routing = some batRC from rfl] at hrc
        cases hrc
        decide),
    by decide, by decide⟩

/-- C4 counterexample: candidate X passes the threshold with the top score
but its target is absent from the registry; the claim predicts that X is
scored, chosen, and the traversal breaks to the fallback result, yet the
run skips X before scoring, selects Y and returns the terminal output of
Y. -/
theorem c4_unresolved_candidate_counterexample :
    run_diagnostic_routing uA (some [exStart, exNodeY]) = ⟨resultLabel ++ "Yres", true⟩ ∧
    run_diagnostic_routing uA (some [exStart, exNodeY]) ≠ fallbackResult uA :=
  ⟨by decide, by decide⟩

/-- C4 amended: candidates whose target id is missing, empty or not a key
of the registry are excluded before scoring, so removing them from the
config does not change the selection, and whenever the selection returns a
node that node is a value of the registry: the chosen candidate always
resolves and the chosen-target-unresolvable break never fires inside
candidate selection. -/
theorem c4_resolvable_filter (u : String) (nodes : List DiagNode) (cur : DiagNode)
    (rc : RoutingConfig) (h : cur.routing = some rc) :
    choose_by_routing u cur (node_index nodes) =
      choose_by_routing u
        { cur with routing := some ⟨rc.next_nodes_map.filter (candResolves (node_index nodes)),
            rc.threshold, rc.tie_breaker_rule⟩ } (node_index nodes) ∧
    ∀ n : DiagNode, choose_by_routing u cur (node_index nodes) = some n →
      ∃ key : String, node_index nodes key = some n := by
  constructor
  · simp only [choose_by_routing, h]
    rw [foldl_routingStep_filter u (node_index nodes) _ rc.next_nodes_map,
        fallbackScan_filter (node_index nodes) (node_index_empty nodes) rc.next_nodes_map]
    rfl
  · intro n hn
    simp only [choose_by_routing, h] at hn
    split at hn
    · split at hn
      · exact ⟨_, hn⟩
      · exact absurd hn (by simp)
    · exact fallbackScan_some (node_index nodes) rc.next_nodes_map n hn

/-- Witness for C4: on the example config the selection is unchanged when
the unresolvable candidate X is removed, and the selected node Y is a
registry value. -/
theorem c4_resolvable_filter_witness :
    choose_by_routing uA exStart (node_index [exStart, exNodeY]) =
      choose_by_routing uA
        { exStart with routing := some ⟨exRC.next_nodes_map.filter
            (candResolves (node_index [exStart, exNodeY])),
            exRC.threshold, exRC.tie_breaker_rule⟩ } (node_index [exStart, exNodeY]) ∧
    choose_by_routing uA exStart (node_index [exStart, exNodeY]) = some exNodeY :=
  ⟨(c4_resolvable_filter uA [exStart, exNodeY] exStart exRC rfl).1, by decide⟩

lemma foldl_routingStep_allbelow (u : String) (idx : String → Option DiagNode)
    (rc : RoutingConfig) :
    ∀ cands : List Candidate,
      (∀ c ∈ cands, candScore u c < rc.threshold) →
      cands.foldl (routingStep u idx rc) ⟨none, -1, 0⟩ = ⟨none, -1, 0⟩ := by
  intro cands
  induction cands with
  | nil => intro _; rfl
  | cons c rest ih =>
    intro hb
    rw [List.foldl_cons,
        routingStep_below u idx rc _ c (by
          have := hb c (List.mem_cons_self c rest)
          omega)]
    exact ih (fun d hd => hb d (List.mem_cons_of_mem c hd))

/-- C5: when a routing config with at least one candidate is present but
no candidate meets the threshold, the engine selects the first declared
candidate whose fallback flag is set and whose target resolves in the
registry; when the routing rule produces nothing at all (no config, empty
candidate list, or nothing selected) the engine selects the first id of
the comma-separated next_raw list that resolves in the registry; when that
also yields nothing the selection is None and the traversal breaks to the
fallback result. -/
theorem c5_fallback_order (u : String) (cur : DiagNode)
    (idx : String → Option DiagNode) :
    (∀ rc, cur.routing = some rc → rc.next_nodes_map ≠ [] →
        (∀ c ∈ rc.next_nodes_map, candScore u c < rc.threshold) →
        choose_next_node u cur idx =
          match fallbackScan idx rc.next_nodes_map with
          | some n => some n
          | none => nextRawChoice cur.next_raw idx) ∧
    (routingRulePart u cur idx = none →
        choose_next_node u cur idx = nextRawChoice cur.next_raw idx) := by
  constructor
  · intro rc hr hne hbelow
    have hcbr : choose_by_routing u cur idx = fallbackScan idx rc.next_nodes_map := by
      simp only [choose_by_routing, hr]
      rw [foldl_routingStep_allbelow u idx rc rc.next_nodes_map hbelow]
    simp only [choose_next_node, hr, if_pos hne, hcbr]
  · intro h
    have hrew : choose_next_node u cur idx =
        match routingRulePart u cur idx with
        | some n => some n
        | none => nextRawChoice cur.next_raw idx := rfl
    rw [hrew, h]

/-- Witness for C5: on a config whose candidates all miss the threshold the
fallback-flagged candidate F1 is selected, and on a node without a config
the first resolvable id N3 of next_raw is selected. -/
theorem c5_fallback_order_witness :
    choose_next_node uQ fbCur (node_index [fbCur, fbNode]) = some fbNode ∧
    choose_next_node uQ nrCur (node_index [nrCur, nrN3]) = some nrN3 := by
  constructor
  · have h := (c5_fallback_order uQ fbCur (node_index [fbCur, fbNode])).1 fbRC rfl
      (by decide) (by decide)
    rw [h]
    decide
  · have h := (c5_fallback_order uQ nrCur (node_index [nrCur, nrN3])).2 (by decide)
    rw [h]
    decide

/-- Witness for C10: a run reaching a terminal node with empty payload
fields returns the completion text. -/
theorem c10_empty_terminal_default_witness :
    run_diagnostic_routing uX (some [exEmptyTerm]) = ⟨doneText, true⟩ :=
  (c10_empty_terminal_default uX (some [exEmptyTerm]) exEmptyTerm (by decide) rfl rfl rfl).1

/-- C6 counterexample: on the memo whose decoded object gains its
routing_config key only through a unicode escape, the extract-then-decode
description of the claim returns the parsed entry, but the parser returns
None because the literal key text does not occur in the memo and the
pre-check fires first. -/
theorem c6_parser_counterexample :
    parse_routing_config memoEsc = none ∧
    parseRoutingConfigSpec memoEsc = some (Json.num 1) ∧
    strContains memoEsc rcKey = false :=
  ⟨rfl, rfl, rfl⟩

/-- C6 amended: the parser never raises (it is total, every caught
exception surfacing as None) and equals the extract-then-decode
description guarded by the literal routing_config substring pre-check: on
any memo containing the literal key text it returns exactly what
extracting the slice between the first and last brace and decoding it
yields, and on any other memo it returns None, even when the decoded
object carries the key through escape sequences. -/
theorem c6_parser_guarded_spec (memo : String) :
    parse_routing_config memo =
      (if strContains memo rcKey = true then parseRoutingConfigSpec memo else none) := by
  by_cases hempty : memo = ""
  · subst hempty
    by_cases h : strContains "" rcKey = true
    · rw [if_pos h]
      rfl
    · rw [if_neg h]
      rfl
  · by_cases hmark : strContains memo rcKey = true
    · rw [if_pos hmark]
      simp only [parse_routing_config, if_neg hempty, if_pos hmark]
      rfl
    · rw [if_neg hmark]
      simp only [parse_routing_config, if_neg hempty]
      rw [if_neg (by simpa using hmark)]

/-- C7 failing-input exhibit: the parser accepts the memo whose
routing_config entry is the bare number 5 and stores that raw value in the
loaded node, and the routing guard of _choose_next_node then raises
AttributeError on it instead of absorbing the condition into a fallback
result. -/
theorem c7_raise_exhibit :
    parse_routing_config memoNum = some (Json.num 5) ∧
    rawNode.routing = some (Json.num 5) ∧
    routingGuard rawNode.routing = Except.error PyErr.attributeError :=
  ⟨rfl, rfl, rfl⟩

end CamperRepair
